import Mathlib

/-!
Verification of the browser-side product-recommendation application.

The development shallowly embeds the client code:
* `services/api.js`: the generic request handler `apiRequest` (JSON parsing,
  HTTP-status check, uniform `ApiError` wrapping), the per-endpoint helpers
  `getRecommendations` and `healthCheck`, and the URL scheme.
* `App.js`: the browsing-history state updates `handleProductClick` and
  `handleClearHistory`, and the await-structure of the two request-issuing
  user actions.
* `components/Catalog.js`: the derived `filteredProducts` list.
* `components/BrowsingHistory.js`: the derived `historyProducts` list.
* `components/Recommendations.js`: the derived `sortedRecommendations` list.

JavaScript values flowing through the API layer are modelled by a small JSON
type `Json` (with an `undef` constructor for JS `undefined`), JS truthiness by
`Json.truthy`, and the `||` operator by `jsOr`.  A fetch outcome is either a
network failure, a response whose body fails to parse as JSON, or a response
with a status code and a parsed body.
-/

namespace RecApp

/-- JSON-like runtime values.  `undef` models JavaScript `undefined`
(the result of reading an absent object field). -/
inductive Json where
  | undefined
  | null
  | bool (b : Bool)
  | num (q : ℚ)
  | str (s : String)
  | arr (elems : List Json)
  | obj (fields : List (String × Json))

/-- JavaScript truthiness of a value. -/
def Json.truthy : Json → Bool
  | .undefined => false
  | .null => false
  | .bool b => b
  | .num q => !(q == 0)
  | .str s => !(s == "")
  | .arr _ => true
  | .obj _ => true

/-- Reading field `k` of a value, as JS property access: `undefined` on
absent fields and on non-objects. -/
def Json.getField : Json → String → Json
  | .obj fields, k =>
    match fields.lookup k with
    | some v => v
    | none => .undefined
  | _, _ => .undefined

/-- The keys of a JSON object (empty for non-objects). -/
def Json.objKeys : Json → List String
  | .obj fields => fields.map Prod.fst
  | _ => []

/-- JavaScript `a || b`. -/
def jsOr (a b : Json) : Json := if a.truthy then a else b

/-- The `ApiError` class of `services/api.js`: a message, the HTTP status
(0 for network errors) and the response payload (`null` for network errors). -/
structure ApiError where
  message : Json
  status : Nat
  data : Json

/-- `response.ok`: the HTTP status is in the 2xx range. -/
def statusOk (status : Nat) : Bool := 200 ≤ status && status < 300

/-- The possible outcomes of `fetch` followed by `response.json()`:
the fetch itself rejects, or a response arrives whose body either fails to
parse (`none`) or parses to a JSON value. -/
inductive FetchOutcome where
  | networkFailure
  | response (status : Nat) (body : Option Json)

/-- The `ApiError` built in the catch-all branch of `apiRequest`
(`services/api.js` line 45): status 0 and `null` data. -/
def networkApiError : ApiError :=
  ⟨.str "Network error - please check your connection", 0, .null⟩

/-- The message of the `ApiError` thrown for a non-2xx response
(`services/api.js` line 31): `data.detail || data.error || `HTTP error ${status}``. -/
def errMessage (data : Json) (status : Nat) : Json :=
  jsOr (data.getField "detail")
    (jsOr (data.getField "error") (.str ("HTTP error " ++ toString status)))

/-- `apiRequest` of `services/api.js`: parse the body, throw an `ApiError`
carrying status and payload on a non-2xx response, return the parsed body on
success; any other failure (fetch rejection, body that fails to parse) is
caught and rethrown as the status-0 `networkApiError`. -/
def apiRequest (o : FetchOutcome) : Except ApiError Json :=
  match o with
  | .networkFailure => .error networkApiError
  | .response _ none => .error networkApiError
  | .response status (some data) =>
    if statusOk status then .ok data
    else .error ⟨errMessage data status, status, data⟩

/-- A request as assembled by the API helpers: endpoint under the API base,
HTTP method, optional JSON body. -/
structure RequestSpec where
  endpoint : String
  method : String
  body : Option Json

/-- The request assembled by `getRecommendations` (`services/api.js`
lines 115-121): POST to `/recommendations` with body
`{preferences, browsing_history}`. -/
def getRecommendationsRequest (preferences browsing_history : Json) : RequestSpec :=
  { endpoint := "/recommendations"
    method := "POST"
    body := some (.obj [("preferences", preferences), ("browsing_history", browsing_history)]) }

/-- `getRecommendations` returns the `apiRequest` result unchanged (its
try/catch only logs and rethrows). -/
def getRecommendations (preferences browsing_history : Json) (o : FetchOutcome) :
    Except ApiError Json :=
  apiRequest o

/-- Default API base URL (`services/api.js` line 2). -/
def API_BASE_URL : String := "http://localhost:5000/api"

/-- The URL an `apiRequest` call targets (`services/api.js` line 16). -/
def requestUrl (endpoint : String) : String := API_BASE_URL ++ endpoint

/-- The URL `healthCheck` fetches (`services/api.js` line 134). -/
def healthCheckUrl : String := "http://localhost:5000/health"

/-- `healthCheck` (`services/api.js` lines 131-140): a plain `fetch` of the
root-level `/health` URL followed by `response.json()`, with no status check;
fetch rejections and unparsable bodies are rethrown as-is (modelled as
`.error ()`). -/
def healthCheck (o : FetchOutcome) : Except Unit Json :=
  match o with
  | .networkFailure => .error ()
  | .response _ none => .error ()
  | .response _ (some data) => .ok data

/-- `handleProductClick` of `App.js` (lines 81-88): remove any existing
occurrence of the clicked ID, prepend it, cap at 50 entries. -/
def handleProductClick (productId : Nat) (prevHistory : List Nat) : List Nat :=
  (productId :: prevHistory.filter (fun id => id != productId)).take 50

/-- `handleClearHistory` of `App.js` (lines 143-145): reset to the empty list. -/
def handleClearHistory : List Nat := []

/-- The operations that modify the browsing history. -/
inductive HistoryOp where
  | click (productId : Nat)
  | clear

/-- Apply one history-modifying operation. -/
def applyHistoryOp (h : List Nat) : HistoryOp → List Nat
  | .click productId => handleProductClick productId h
  | .clear => handleClearHistory

/-- Run a sequence of operations starting from the initial state `[]`
(`useState([])` in `App.js` line 26). -/
def runHistory (ops : List HistoryOp) : List Nat :=
  ops.foldl applyHistoryOp []

theorem nodup_handleProductClick (productId : Nat) (h : List Nat) (hn : h.Nodup) :
    (handleProductClick productId h).Nodup := by
  apply List.Nodup.sublist (List.take_sublist _ _)
  refine List.Nodup.cons ?_ (hn.filter _)
  intro hmem
  have := List.of_mem_filter hmem
  simp at this

/-- The message-selection rule as the specification words it: the payload's
`detail` field if present, otherwise its `error` field if present, otherwise
the string `HTTP error {status}`.  Stated for comparison with `errMessage`,
which follows the code's truthiness-based `||` chain instead. -/
def claimMessage (data : Json) (status : Nat) : Json :=
  match data.getField "detail" with
  | .undefined =>
    match data.getField "error" with
    | .undefined => .str ("HTTP error " ++ toString status)
    | e => e
  | d => d

/-- C2: `apiRequest` always returns the parsed body or an `ApiError`, and the
error is exactly one of two kinds: a non-2xx response with a parsable body
yields an `ApiError` carrying the response status and payload, and every
other failure yields the status-0 `ApiError` with `null` data. -/
theorem apiRequest_error_classification (o : FetchOutcome) :
    (∃ status data, o = .response status (some data) ∧ statusOk status = true ∧
        apiRequest o = .ok data) ∨
    (∃ status data, o = .response status (some data) ∧ statusOk status = false ∧
        apiRequest o = .error ⟨errMessage data status, status, data⟩) ∨
    (apiRequest o = .error networkApiError ∧
        networkApiError.status = 0 ∧ networkApiError.data = .null) := by
  match o with
  | .networkFailure => exact Or.inr (Or.inr ⟨rfl, rfl, rfl⟩)
  | .response status none => exact Or.inr (Or.inr ⟨rfl, rfl, rfl⟩)
  | .response status (some data) =>
    by_cases h : statusOk status = true
    · exact Or.inl ⟨status, data, rfl, h, by simp [apiRequest, h]⟩
    · refine Or.inr (Or.inl ⟨status, data, rfl, by simpa using h, ?_⟩)
      simp only [apiRequest, Bool.not_eq_true] at *
      simp [h]

/-- C3: the recommendations request is a POST whose JSON body has exactly the
keys `preferences` and `browsing_history`, bound to the two arguments, and
`getRecommendations` passes the `apiRequest` result through unchanged. -/
theorem getRecommendations_request_shape (preferences browsing_history : Json)
    (o : FetchOutcome) :
    (getRecommendationsRequest preferences browsing_history).method = "POST" ∧
    (getRecommendationsRequest preferences browsing_history).endpoint = "/recommendations" ∧
    ((getRecommendationsRequest preferences browsing_history).body.map Json.objKeys
        = some ["preferences", "browsing_history"]) ∧
    ((getRecommendationsRequest preferences browsing_history).body.map
        (fun b => (b.getField "preferences", b.getField "browsing_history"))
        = some (preferences, browsing_history)) ∧
    getRecommendations preferences browsing_history o = apiRequest o :=
  ⟨rfl, rfl, rfl, rfl, rfl⟩

/-- C5 counterexample: with payload `{detail: "", error: "boom"}` and
status 404, the code's `||` chain skips the present-but-empty `detail`
field and throws message `"boom"`, while the claim's present-field rule
selects `""`. -/
theorem apiRequest_message_cex :
    apiRequest (.response 404 (some (Json.obj [("detail", .str ""), ("error", .str "boom")]))) =
      .error ⟨.str "boom", 404,
        Json.obj [("detail", .str ""), ("error", .str "boom")]⟩ ∧
    claimMessage (Json.obj [("detail", .str ""), ("error", .str "boom")]) 404 = .str "" ∧
    Json.str "boom" ≠ Json.str "" := by
  refine ⟨rfl, rfl, fun h => ?_⟩
  injection h with h'
  exact absurd h' (by decide)

/-- C5 amended: for every non-2xx response with parsable payload, the thrown
`ApiError` carries the response status, the payload, and the message
`data.detail || data.error || "HTTP error {status}"` — the `detail` field if
truthy (present and non-empty), else the `error` field if truthy, else the
fallback string — uniformly for every endpoint. -/
theorem apiRequest_message_uniform (status : Nat) (data : Json)
    (h : statusOk status = false) :
    apiRequest (.response status (some data)) =
      .error ⟨jsOr (data.getField "detail")
          (jsOr (data.getField "error") (.str ("HTTP error " ++ toString status))),
        status, data⟩ := by
  simp [apiRequest, h, errMessage]

/-- C5 witness: the amended message rule evaluated on a concrete 404
response whose payload has a truthy `detail` field. -/
theorem apiRequest_message_uniform_witness :
    statusOk 404 = false ∧
    apiRequest (.response 404 (some (Json.obj [("detail", .str "missing")]))) =
      .error ⟨.str "missing", 404, Json.obj [("detail", .str "missing")]⟩ :=
  ⟨rfl, apiRequest_message_uniform 404 (Json.obj [("detail", .str "missing")]) rfl⟩

/-- C6: `healthCheck` targets the root-level `/health` URL, which does not
extend the `/api` base every other operation's URL extends, and it returns
the parsed JSON body of any response. -/
theorem healthCheck_root_url :
    healthCheckUrl = "http://localhost:5000" ++ "/health" ∧
    API_BASE_URL.data.isPrefixOf healthCheckUrl.data = false ∧
    (∀ endpoint : String, (requestUrl endpoint).data = API_BASE_URL.data ++ endpoint.data) ∧
    (∀ (status : Nat) (data : Json), healthCheck (.response status (some data)) = .ok data) := by
  refine ⟨rfl, by decide, fun endpoint => rfl, fun status data => rfl⟩

/-- C1: after a product click the clicked ID is at position 0 and the
history holds at most 50 IDs. -/
theorem handleProductClick_recent_first_capped (productId : Nat) (prevHistory : List Nat) :
    (handleProductClick productId prevHistory).head? = some productId ∧
      (handleProductClick productId prevHistory).length ≤ 50 := by
  constructor
  · simp [handleProductClick, List.take_succ_cons]
  · simp [handleProductClick]

/-- C8: every history state reachable from the empty initial state through
clicks and clears has no duplicate product IDs. -/
theorem runHistory_nodup (ops : List HistoryOp) : (runHistory ops).Nodup := by
  suffices h : ∀ (start : List Nat), start.Nodup → (ops.foldl applyHistoryOp start).Nodup from
    h [] List.nodup_nil
  induction ops with
  | nil => intro start hs; exact hs
  | cons op rest ih =>
    intro start hs
    apply ih
    cases op with
    | click productId => exact nodup_handleProductClick productId start hs
    | clear => exact List.nodup_nil

/-- A catalog product record (glossary: name, price, category, brand, rating,
inventory, tags, features; `rating`, `inventory` and `tags` may be absent). -/
structure Product where
  id : Nat
  name : String
  description : String
  category : String
  brand : String
  price : ℚ
  rating : Option ℚ
  inventory : Option ℚ
  tags : Option (List String)
  features : Option (List String)
  deriving DecidableEq

/-- Substring test on character lists, as JS `String.prototype.includes`. -/
def charsIncl (query : List Char) : List Char → Bool
  | [] => query.isEmpty
  | c :: rest => query.isPrefixOf (c :: rest) || charsIncl query rest

/-- JS `hay.includes(query)`. -/
def jsIncludes (hay query : String) : Bool := charsIncl query.data hay.data

/-- The price-range bound of the catalog filter state. -/
structure PriceRange where
  min : ℚ
  max : ℚ
  deriving DecidableEq

/-- The `filters` state of `components/Catalog.js` (lines 5-10). -/
structure CatalogFilters where
  category : String
  priceRange : PriceRange
  sortBy : String
  searchQuery : String
  deriving DecidableEq

/-- The price filter of `Catalog.js` (lines 28-31):
`price >= min && price <= max`. -/
def matchesPriceRange (filters : CatalogFilters) (p : Product) : Bool :=
  decide (filters.priceRange.min ≤ p.price) && decide (p.price ≤ filters.priceRange.max)

/-- The search filter of `Catalog.js` (lines 36-41), applied to the
lowercased query: name, description, any tag, or brand includes the query
(`tags?.some` is falsy when `tags` is absent). -/
def matchesSearch (query : String) (p : Product) : Bool :=
  jsIncludes p.name.toLower query || jsIncludes p.description.toLower query ||
    (p.tags.getD []).any (fun tag => jsIncludes tag.toLower query) ||
    jsIncludes p.brand.toLower query

/-- `localeCompare` modelled as the lexicographic comparison of the two
strings, returned as a number. -/
def localeCompare (a b : String) : ℚ :=
  match compare a b with
  | .lt => -1
  | .eq => 0
  | .gt => 1

/-- The sort comparator of `Catalog.js` (lines 45-60); absent ratings and
inventories count as 0, unknown `sortBy` values compare everything equal. -/
def productComparator (sortBy : String) (a b : Product) : ℚ :=
  if sortBy = "price-low" then a.price - b.price
  else if sortBy = "price-high" then b.price - a.price
  else if sortBy = "rating" then (b.rating.getD 0) - (a.rating.getD 0)
  else if sortBy = "name" then localeCompare a.name b.name
  else if sortBy = "inventory" then (b.inventory.getD 0) - (a.inventory.getD 0)
  else 0

/-- `filteredProducts` of `Catalog.js` (lines 19-63): category filter when a
specific category is selected, then price filter, then search filter when the
trimmed query is non-empty, then sort by the active comparator. -/
def filteredProducts (filters : CatalogFilters) (products : List Product) : List Product :=
  let afterCategory :=
    if filters.category ≠ "all" then
      products.filter (fun p => p.category == filters.category)
    else products
  let afterPrice := afterCategory.filter (fun p => matchesPriceRange filters p)
  let afterSearch :=
    if filters.searchQuery.trim ≠ "" then
      afterPrice.filter (fun p => matchesSearch filters.searchQuery.toLower p)
    else afterPrice
  afterSearch.mergeSort (fun a b => decide (productComparator filters.sortBy a b ≤ 0))

/-- `historyProducts` of `components/BrowsingHistory.js` (lines 6-11): map
each history ID to its product, drop the unresolved ones (`filter(Boolean)`),
reverse. -/
def historyProducts (history : List Nat) (products : List Product) : List Product :=
  ((history.map (fun productId => products.find? (fun p => p.id == productId))).filterMap id).reverse

/-- A recommendation record; `confidence_score` may be absent. -/
structure Recommendation where
  product : Product
  explanation : String
  confidence_score : Option ℚ
  deriving DecidableEq

/-- The effective score of a recommendation: `confidence_score || 0`. -/
def recScore (r : Recommendation) : ℚ := r.confidence_score.getD 0

/-- `sortedRecommendations` of `components/Recommendations.js` (lines
233-241): the empty list for a null/non-array input, otherwise a copy sorted
by the comparator `scoreB - scoreA`. -/
def sortedRecommendations (recommendations : Option (List Recommendation)) :
    List Recommendation :=
  match recommendations with
  | none => []
  | some l => l.mergeSort (fun a b => decide (recScore b - recScore a ≤ 0))

/-- The HTTP-request-producing operations of `services/api.js` that `App.js`
invokes. -/
inductive ApiCall where
  | healthCheck
  | fetchProducts
  | fetchCategories
  | getRecommendations
  deriving DecidableEq

/-- Await-structure of `loadInitialData` (`App.js` lines 36-78): each inner
list is a set of requests in flight concurrently.  `healthCheck` is awaited
first (line 44); then `fetchProducts` and `fetchCategories` are launched
together in one `Promise.all` (lines 52-55). -/
def loadInitialDataStages : List (List ApiCall) :=
  [[.healthCheck], [.fetchProducts, .fetchCategories]]

/-- Await-structure of `handleGetRecommendations` (`App.js` line 115): a
single awaited `getRecommendations` call. -/
def handleGetRecommendationsStages : List (List ApiCall) :=
  [[.getRecommendations]]

/-- The request-issuing user actions of `App.js`; product clicks, preference
changes and history clears issue no requests. -/
def userActionStages : List (List (List ApiCall)) :=
  [loadInitialDataStages, handleGetRecommendationsStages]

/-- C4: with a specific category selected, the displayed catalog list holds
exactly the products of that category that also pass the price filter and,
when a search query is active, the search filter. -/
theorem filteredProducts_category_exact (filters : CatalogFilters)
    (products : List Product) (p : Product) (hcat : filters.category ≠ "all") :
    p ∈ filteredProducts filters products ↔
      (p ∈ products ∧ p.category = filters.category ∧
        matchesPriceRange filters p = true ∧
        (filters.searchQuery.trim ≠ "" → matchesSearch filters.searchQuery.toLower p = true)) := by
  simp only [filteredProducts, List.mem_mergeSort, if_pos hcat]
  by_cases hq : filters.searchQuery.trim ≠ ""
  · simp [if_pos hq, List.mem_filter, hq, and_assoc]
    tauto
  · simp [if_neg hq, List.mem_filter, hq, and_assoc]
    tauto

/-- A concrete electronics product used to instantiate the catalog theorem. -/
def sampleProductA : Product :=
  ⟨1, "Laptop", "A fast laptop", "electronics", "Acme", 500, some 4, some 5, some ["tech"], none⟩

/-- A concrete furniture product used to instantiate the catalog theorem. -/
def sampleProductB : Product :=
  ⟨2, "Sofa", "A comfy sofa", "furniture", "Acme", 300, some 3, some 2, none, none⟩

/-- A concrete filter state selecting the `electronics` category. -/
def sampleFilters : CatalogFilters := ⟨"electronics", ⟨0, 1000⟩, "rating", ""⟩

/-- C4 witness: the category-exactness equivalence at a concrete filter state
and two-product catalog. -/
theorem filteredProducts_category_exact_witness :
    sampleProductA ∈ filteredProducts sampleFilters [sampleProductA, sampleProductB] ↔
      (sampleProductA ∈ [sampleProductA, sampleProductB] ∧
        sampleProductA.category = sampleFilters.category ∧
        matchesPriceRange sampleFilters sampleProductA = true ∧
        (sampleFilters.searchQuery.trim ≠ "" →
          matchesSearch sampleFilters.searchQuery.toLower sampleProductA = true)) :=
  filteredProducts_category_exact sampleFilters [sampleProductA, sampleProductB]
    sampleProductA (by decide)

/-- C9: the history panel's product list is the reverse of the history's
IDs resolved to products with unresolved IDs dropped, so its first entry is
the product of the last surviving stored ID (the earliest click when the
stored history is most-recent-first). -/
theorem historyProducts_reversed (history : List Nat) (products : List Product) :
    historyProducts history products =
      (history.filterMap
        (fun productId => products.find? (fun p => p.id == productId))).reverse ∧
    (historyProducts history products).head? =
      (history.filterMap
        (fun productId => products.find? (fun p => p.id == productId))).getLast? := by
  have h1 : historyProducts history products =
      (history.filterMap
        (fun productId => products.find? (fun p => p.id == productId))).reverse := by
    simp [historyProducts, List.filterMap_map]
  exact ⟨h1, by rw [h1, List.head?_reverse]⟩

/-- C10: the recommendations panel shows a permutation of the received array
that is pairwise non-increasing in effective confidence score (absent scores
counting as 0), and a null or non-array input yields the empty list. -/
theorem sortedRecommendations_sorted (l : List Recommendation) :
    sortedRecommendations none = [] ∧
    (sortedRecommendations (some l)).Perm l ∧
    (sortedRecommendations (some l)).Pairwise (fun a b => recScore b ≤ recScore a) ∧
    (∀ (product : Product) (explanation : String),
      recScore ⟨product, explanation, none⟩ = 0) := by
  refine ⟨rfl, List.mergeSort_perm l _, ?_, fun product explanation => rfl⟩
  have h := @List.sorted_mergeSort _
    (fun a b : Recommendation => decide (recScore b - recScore a ≤ 0))
    (fun a b c hab hbc => by
      simp only [decide_eq_true_eq] at *
      linarith)
    (fun a b => by
      simp only [Bool.or_eq_true, decide_eq_true_eq]
      rcases le_total (recScore b) (recScore a) with h | h
      · exact Or.inl (by linarith)
      · exact Or.inr (by linarith))
    l
  refine (List.Pairwise.imp ?_ h)
  intro a b hab
  simp only [decide_eq_true_eq] at hab
  linarith

/-- C7 counterexample: the initial-load action launches `fetchProducts` and
`fetchCategories` concurrently in one `Promise.all`, so it is false that
every user action keeps at most one request in flight. -/
theorem singleFlight_cex :
    ¬ (∀ action ∈ userActionStages, ∀ stage ∈ action, stage.length ≤ 1) := by
  decide

/-- C7 amended: every stage of every user action has at most two requests in
flight, and the only two-request stage is the initial load's parallel
`fetchProducts`/`fetchCategories` pair; every other stage carries at most
one request. -/
theorem singleFlight_bound (action : List (List ApiCall))
    (ha : action ∈ userActionStages) (stage : List ApiCall) (hs : stage ∈ action) :
    stage.length ≤ 2 ∧
      (stage.length = 2 → stage = [ApiCall.fetchProducts, ApiCall.fetchCategories]) := by
  have h : ∀ a ∈ userActionStages, ∀ s ∈ a,
      s.length ≤ 2 ∧
        (s.length = 2 → s = [ApiCall.fetchProducts, ApiCall.fetchCategories]) := by decide
  exact h action ha stage hs

/-- C7 witness: the bound evaluated on the initial load's parallel stage. -/
theorem singleFlight_bound_witness :
    [ApiCall.fetchProducts, ApiCall.fetchCategories].length ≤ 2 ∧
      ([ApiCall.fetchProducts, ApiCall.fetchCategories].length = 2 →
        [ApiCall.fetchProducts, ApiCall.fetchCategories] =
          [ApiCall.fetchProducts, ApiCall.fetchCategories]) :=
  singleFlight_bound loadInitialDataStages (by decide)
    [ApiCall.fetchProducts, ApiCall.fetchCategories] (by decide)

end RecApp
